import Mathlib

/-
Shallow embedding of src/src/InputManager.ts from hpcreery/pixi-viewport.

The InputManager is the pointer/touch/wheel input coordinator of the
viewport.  Its mutable fields (clickedAvailable, isMouseDown, last,
touches) become the state record IMState.  Every query the handlers make
on the owning Viewport (pause, worldVisible, threshold, the optional
decelerate/bounce plugins, the visible bounds, the canvas element, the
toLocal/toWorld transforms, the option flags) is a field of Env, read
afresh on each call, matching the source which reads them from
this.viewport on every event.  The plugin-chain verdict of each dispatch
(this.viewport.plugins.down/move/up/wheel) is passed in as the boolean
pluginStop.  Coordinates are rationals.
-/

namespace PixiViewport

/-- Planar point with rational coordinates (models @pixi Point / IPointData). -/
structure Point where
  x : ℚ
  y : ℚ
deriving DecidableEq, Repr

/-- One registry entry: `{ id: number; last: IPointData | null }`. -/
structure IViewportTouch where
  id : ℤ
  last : Option Point
deriving DecidableEq, Repr

/-- Pointer device class, compared against the string constant "mouse" in the source. -/
inductive PointerType where
  | mouse
  | touch
  | pen
deriving DecidableEq, Repr

/-- The fields of a DOM PointerEvent the InputManager reads. -/
structure PointerEvent where
  pointerType : PointerType
  pointerId : ℤ
  clientX : ℚ
  clientY : ℚ
deriving DecidableEq, Repr

/-- The fields of a DOM WheelEvent the InputManager reads. -/
structure WheelEvent where
  clientX : ℚ
  clientY : ℚ
deriving DecidableEq, Repr

/-- Bounding rectangle of the canvas (getBoundingClientRect result). -/
structure Rect where
  left : ℚ
  top : ℚ
  width : ℚ
  height : ℚ
deriving DecidableEq, Repr

/-- The canvas element as the InputManager sees it: backing pixel size,
whether a layout parent exists, and the on-screen bounding rectangle. -/
structure CanvasElement where
  width : ℚ
  height : ℚ
  hasParentElement : Bool
  boundingClientRect : Rect
deriving DecidableEq, Repr

/-- Snapshot of everything the handlers read from this.viewport:
pause/visibility gates, click threshold, the optional decelerate and
bounce plugins (none = plugin absent, some b = present with isActive() = b),
option flags, canvas metrics, visible bounds, and the local/world
transforms. -/
structure Env where
  pause : Bool
  worldVisible : Bool
  threshold : ℚ
  decelerateActive : Option Bool
  bounceActive : Option Bool
  stopPropagation : Bool
  passiveWheel : Bool
  canvasElement : CanvasElement
  left : ℚ
  right : ℚ
  top : ℚ
  bottom : ℚ
  toLocal : Point → Point
  toWorld : Point → Point

/-- Mutable state of the InputManager instance. -/
structure IMState where
  clickedAvailable : Bool
  isMouseDown : Bool
  last : Option Point
  touches : List IViewportTouch
deriving DecidableEq, Repr

/-- State right after the constructor: touches = [], isMouseDown = false,
clickedAvailable and last undefined (falsy / null). -/
def initialState : IMState :=
  { clickedAvailable := false, isMouseDown := false, last := none, touches := [] }

/-- Payload of the clicked signal: `{ event, screen, world, viewport }`
(the viewport self-reference is omitted). -/
structure ClickedSignal where
  event : PointerEvent
  screen : Point
  world : Point
deriving DecidableEq, Repr

/-- Result of one pointer handler call: the new state, the clicked signal
it emitted (at most one), and whether event.stopPropagation() was called. -/
structure StepResult where
  state : IMState
  emitted : Option ClickedSignal
  stopPropagationCalled : Bool
deriving DecidableEq, Repr

namespace InputManager

/-- InputManager.get: linear scan of this.touches for the first entry
with the given id, null when absent. -/
def get (s : IMState) (id : ℤ) : Option IViewportTouch :=
  s.touches.find? (fun t => t.id == id)

/-- Removal of the first entry with the given id (the splice performed by
InputManager.remove). -/
def removeFirst (ts : List IViewportTouch) (id : ℤ) : List IViewportTouch :=
  match ts with
  | [] => []
  | t :: rest => if t.id == id then rest else t :: removeFirst rest id

/-- InputManager.remove: splice out the first touch with the given id;
no-op when absent. -/
def remove (s : IMState) (id : ℤ) : IMState :=
  { s with touches := removeFirst s.touches id }

/-- InputManager.count: `(this.isMouseDown ? 1 : 0) + this.touches.length`. -/
def count (s : IMState) : ℤ :=
  (if s.isMouseDown then 1 else 0) + (s.touches.length : ℤ)

/-- The test `(!plugin || !plugin.isActive())` applied to an optional
plugin: true when the plugin is absent or present but inactive. -/
def indicatorInactive : Option Bool → Bool
  | none => true
  | some active => !active

/-- InputManager.checkThreshold: `Math.abs(change) >= this.viewport.threshold`. -/
def checkThreshold (env : Env) (change : ℚ) : Bool :=
  decide (env.threshold ≤ |change|)

/-- InputManager.down.  Gated on pause/visibility; sets the mouse flag or
registers an unseen touch id; when the resulting count is exactly 1,
records last = (clientX, clientY) and computes clickedAvailable from the
decelerate/bounce plugins, otherwise clears clickedAvailable; finally
dispatches to the plugin chain and stops propagation when asked to. -/
def down (env : Env) (s : IMState) (event : PointerEvent) (pluginStop : Bool) :
    StepResult :=
  if env.pause || !env.worldVisible then
    { state := s, emitted := none, stopPropagationCalled := false }
  else
    let s1 :=
      if event.pointerType = PointerType.mouse then
        { s with isMouseDown := true }
      else if (get s event.pointerId).isNone then
        { s with touches := s.touches ++ [{ id := event.pointerId, last := none }] }
      else
        s
    let s2 :=
      if count s1 = 1 then
        let s1a := { s1 with last := some { x := event.clientX, y := event.clientY } }
        if indicatorInactive env.decelerateActive && indicatorInactive env.bounceActive then
          { s1a with clickedAvailable := true }
        else
          { s1a with clickedAvailable := false }
      else
        { s1 with clickedAvailable := false }
    { state := s2, emitted := none,
      stopPropagationCalled := pluginStop && env.stopPropagation }

/-- InputManager.move.  Gated on pause/visibility; dispatches to the
plugin chain; while clickedAvailable with a recorded reference point,
compares the displacement on each axis against the threshold and disarms
the click when either reaches it; stops propagation when asked to. -/
def move (env : Env) (s : IMState) (event : PointerEvent) (pluginStop : Bool) :
    StepResult :=
  if env.pause || !env.worldVisible then
    { state := s, emitted := none, stopPropagationCalled := false }
  else
    let s1 :=
      if s.clickedAvailable then
        match s.last with
        | some lastPoint =>
          let distX := event.clientX - lastPoint.x
          let distY := event.clientY - lastPoint.y
          if checkThreshold env distX || checkThreshold env distY then
            { s with clickedAvailable := false }
          else
            s
        | none => s
      else
        s
    { state := s1, emitted := none,
      stopPropagationCalled := pluginStop && env.stopPropagation }

/-- InputManager.up.  Gated on pause/visibility; clears the mouse flag on
a mouse up, removes the touch otherwise; dispatches to the plugin chain;
when clickedAvailable with count 0 and a recorded reference point, emits
the clicked signal and clears clickedAvailable; stops propagation when
asked to. -/
def up (env : Env) (s : IMState) (event : PointerEvent) (pluginStop : Bool) :
    StepResult :=
  if env.pause || !env.worldVisible then
    { state := s, emitted := none, stopPropagationCalled := false }
  else
    let s1 :=
      if event.pointerType = PointerType.mouse then
        { s with isMouseDown := false }
      else
        s
    let s2 :=
      if event.pointerType ≠ PointerType.mouse then
        remove s1 event.pointerId
      else
        s1
    if s2.clickedAvailable = true ∧ count s2 = 0 then
      match s2.last with
      | some lastPoint =>
        { state := { s2 with clickedAvailable := false },
          emitted := some { event := event, screen := lastPoint,
                            world := env.toWorld lastPoint },
          stopPropagationCalled := pluginStop && env.stopPropagation }
      | none =>
        { state := s2, emitted := none,
          stopPropagationCalled := pluginStop && env.stopPropagation }
    else
      { state := s2, emitted := none,
        stopPropagationCalled := pluginStop && env.stopPropagation }

/-- InputManager.clear: isMouseDown = false, touches = [], last = null. -/
def clear (s : IMState) : IMState :=
  { s with isMouseDown := false, touches := [], last := none }

/-- InputManager.pause: touches = [], isMouseDown = false (nothing else). -/
def pause (s : IMState) : IMState :=
  { s with touches := [], isMouseDown := false }

/-- InputManager.mapPositionToPoint: uses a zero-offset rect of the
backing size when the canvas has no parent element, the bounding client
rect otherwise; localX = (x - rect.left) * (backingWidth / rect.width),
y symmetric (resolutionMultiplier is the constant 1). -/
def mapPositionToPoint (canvasElement : CanvasElement) (x y : ℚ) : Point :=
  let rect :=
    if !canvasElement.hasParentElement then
      { left := 0, top := 0, width := canvasElement.width,
        height := canvasElement.height : Rect }
    else
      canvasElement.boundingClientRect
  { x := (x - rect.left) * (canvasElement.width / rect.width),
    y := (y - rect.top) * (canvasElement.height / rect.height) }

/-- InputManager.getPointerPosition: mapPositionToPoint on the event's
client coordinates. -/
def getPointerPosition (env : Env) (event : WheelEvent) : Point :=
  mapPositionToPoint env.canvasElement event.clientX event.clientY

/-- Observable outcome of handleWheel: whether the plugin chain's wheel
handler was invoked and whether event.preventDefault() was called. -/
structure WheelResult where
  pluginWheelCalled : Bool
  preventDefaultCalled : Bool
deriving DecidableEq, Repr

/-- InputManager.handleWheel.  Gated on pause/visibility; maps the event
position to the viewport's local space; only when the point lies inside
[left, right] × [top, bottom] dispatches to the plugin chain, and calls
preventDefault when the verdict is stop and the wheel listener is
non-passive. -/
def handleWheel (env : Env) (event : WheelEvent) (pluginStop : Bool) : WheelResult :=
  if env.pause || !env.worldVisible then
    { pluginWheelCalled := false, preventDefaultCalled := false }
  else
    let point := env.toLocal (getPointerPosition env event)
    if env.left ≤ point.x ∧ point.x ≤ env.right
        ∧ env.top ≤ point.y ∧ point.y ≤ env.bottom then
      { pluginWheelCalled := true,
        preventDefaultCalled := pluginStop && !env.passiveWheel }
    else
      { pluginWheelCalled := false, preventDefaultCalled := false }

end InputManager

/-- One hardware pointer event together with the verdict the plugin chain
returns for its dispatch. -/
inductive InputEvent where
  | downE (event : PointerEvent) (pluginStop : Bool)
  | moveE (event : PointerEvent) (pluginStop : Bool)
  | upE (event : PointerEvent) (pluginStop : Bool)
deriving DecidableEq, Repr

/-- Dispatch one event to the matching handler. -/
def step (env : Env) (s : IMState) : InputEvent → StepResult
  | InputEvent.downE event pluginStop => InputManager.down env s event pluginStop
  | InputEvent.moveE event pluginStop => InputManager.move env s event pluginStop
  | InputEvent.upE event pluginStop => InputManager.up env s event pluginStop

/-- Process a list of events in order (each with the environment snapshot
in force when it arrives), collecting every clicked signal emitted. -/
def run (s : IMState) : List (Env × InputEvent) → IMState × List ClickedSignal
  | [] => (s, [])
  | e :: rest =>
    let r := step e.1 s e.2
    let p := run r.state rest
    (p.1, r.emitted.toList ++ p.2)

/-- Whether an event is a down event (starts or extends a press sequence). -/
def isDownEvent : InputEvent → Bool
  | InputEvent.downE _ _ => true
  | _ => false

/-- The registry part of InputManager.down: set the mouse flag on a mouse
event, push an unseen touch id, leave a live touch id alone. -/
def downRegistry (s : IMState) (ev : PointerEvent) : IMState :=
  if ev.pointerType = PointerType.mouse then
    { s with isMouseDown := true }
  else if (InputManager.get s ev.pointerId).isNone then
    { s with touches := s.touches ++ [{ id := ev.pointerId, last := none }] }
  else
    s

/-- The registry part of InputManager.up: clear the mouse flag on a mouse
event, remove the touch otherwise. -/
def upRegistry (s : IMState) (ev : PointerEvent) : IMState :=
  if ev.pointerType = PointerType.mouse then
    { s with isMouseDown := false }
  else
    InputManager.remove s ev.pointerId

/-- Registry well-formedness: touch ids are pairwise distinct. -/
def idsNodup (s : IMState) : Prop :=
  (s.touches.map IViewportTouch.id).Nodup

/-- Concrete canvas: backing 800×600 shown as 400×300 at offset (10,10). -/
def canvasSample : CanvasElement :=
  { width := 800, height := 600, hasParentElement := true,
    boundingClientRect := { left := 10, top := 10, width := 400, height := 300 } }

/-- Concrete environment: visible, unpaused, threshold 5, no decelerate
or bounce plugin, identity transforms. -/
def envSample : Env :=
  { pause := false, worldVisible := true, threshold := 5,
    decelerateActive := none, bounceActive := none,
    stopPropagation := false, passiveWheel := false,
    canvasElement := canvasSample,
    left := 0, right := 100, top := 0, bottom := 100,
    toLocal := fun p => p, toWorld := fun p => p }

/-- The sample environment with the viewport paused. -/
def envPaused : Env :=
  { envSample with pause := true }

/-- A state mid press-sequence: one touch down, click armed. -/
def armedState : IMState :=
  { clickedAvailable := true, isMouseDown := false,
    last := some { x := 1, y := 2 }, touches := [{ id := 5, last := none }] }

/-- A touch-up event for pointer id 5. -/
def touchUp5 : PointerEvent :=
  { pointerType := PointerType.touch, pointerId := 5, clientX := 1, clientY := 2 }

/-- A touch-down event for pointer id 5. -/
def touchDown5 : PointerEvent :=
  { pointerType := PointerType.touch, pointerId := 5, clientX := 7, clientY := 8 }

/-- A touch-down event for pointer id 1 at (3, 4). -/
def tapDown : PointerEvent :=
  { pointerType := PointerType.touch, pointerId := 1, clientX := 3, clientY := 4 }

/-- A small move of pointer id 1, within the sample threshold of (3, 4). -/
def tapMove : PointerEvent :=
  { pointerType := PointerType.touch, pointerId := 1, clientX := 6, clientY := 4 }

/-- The matching touch-up event for pointer id 1. -/
def tapUp : PointerEvent :=
  { pointerType := PointerType.touch, pointerId := 1, clientX := 6, clientY := 4 }

/-- A move of pointer id 5 far beyond the sample threshold. -/
def farMove : PointerEvent :=
  { pointerType := PointerType.touch, pointerId := 5, clientX := 30, clientY := 2 }

/-- A wheel event at (20, 20). -/
def wheelSample : WheelEvent :=
  { clientX := 20, clientY := 20 }


section Lemmas

open InputManager


/-- Updating clickedAvailable and last leaves count unchanged. -/
lemma count_update (s : IMState) (ca : Bool) (l : Option Point) :
    count { s with clickedAvailable := ca, last := l } = count s := rfl

/-- Updating clickedAvailable alone leaves count unchanged. -/
lemma count_update_ca (s : IMState) (ca : Bool) :
    count { s with clickedAvailable := ca } = count s := rfl

/-- Characterization of the state produced by InputManager.down when the
viewport is not paused and visible. -/
lemma down_state_eq (env : Env) (s : IMState) (ev : PointerEvent) (b : Bool)
    (hp : env.pause = false) (hv : env.worldVisible = true) :
    (down env s ev b).state =
      (if count (downRegistry s ev) = 1 then
        { downRegistry s ev with
            last := some { x := ev.clientX, y := ev.clientY },
            clickedAvailable :=
              indicatorInactive env.decelerateActive
                && indicatorInactive env.bounceActive }
       else { downRegistry s ev with clickedAvailable := false }) := by
  unfold down downRegistry
  simp only [hp, hv, Bool.not_true, Bool.or_false, if_neg Bool.false_ne_true]
  split_ifs <;> simp_all

/-- A down dispatch never emits a clicked signal. -/
lemma down_emitted_none (env : Env) (s : IMState) (ev : PointerEvent) (b : Bool) :
    (down env s ev b).emitted = none := by
  unfold down
  split
  · rfl
  · split
    · split <;> rfl
    · rfl

/-- A move dispatch never emits a clicked signal. -/
lemma move_emitted_none (env : Env) (s : IMState) (ev : PointerEvent) (b : Bool) :
    (move env s ev b).emitted = none := by
  unfold move
  split <;> rfl

/-- While the viewport reports paused, every handler returns the state
unchanged, emitting nothing. -/
lemma step_paused (env : Env) (s : IMState) (e : InputEvent) (hp : env.pause = true) :
    step env s e = { state := s, emitted := none, stopPropagationCalled := false } := by
  cases e <;> simp [step, down, move, up, hp]

/-- The touches list of the state after a down is the registry update's
touches list (the click bookkeeping leaves it alone). -/
lemma down_state_touches (env : Env) (s : IMState) (ev : PointerEvent) (b : Bool)
    (hp : env.pause = false) (hv : env.worldVisible = true) :
    (down env s ev b).state.touches = (downRegistry s ev).touches := by
  rw [down_state_eq env s ev b hp hv]
  split <;> rfl

/-- The mouse flag of the state after a down is the registry update's. -/
lemma down_state_isMouseDown (env : Env) (s : IMState) (ev : PointerEvent) (b : Bool)
    (hp : env.pause = false) (hv : env.worldVisible = true) :
    (down env s ev b).state.isMouseDown = (downRegistry s ev).isMouseDown := by
  rw [down_state_eq env s ev b hp hv]
  split <;> rfl

/-- A non-mouse down for an unregistered id appends a fresh contact. -/
lemma downRegistry_absent (s : IMState) (ev : PointerEvent)
    (hty : ev.pointerType ≠ PointerType.mouse)
    (habs : get s ev.pointerId = none) :
    downRegistry s ev =
      { s with touches := s.touches ++ [{ id := ev.pointerId, last := none }] } := by
  unfold downRegistry
  rw [if_neg hty, if_pos (by simp [habs])]

/-- A non-mouse down for a live id leaves the state unchanged. -/
lemma downRegistry_present (s : IMState) (ev : PointerEvent)
    (hty : ev.pointerType ≠ PointerType.mouse)
    (hpres : (get s ev.pointerId).isNone = false) :
    downRegistry s ev = s := by
  unfold downRegistry
  rw [if_neg hty, if_neg (by simp [hpres])]


/-- Removing a touch leaves clickedAvailable alone. -/
lemma upRegistry_clickedAvailable (s : IMState) (ev : PointerEvent) :
    (upRegistry s ev).clickedAvailable = s.clickedAvailable := by
  unfold upRegistry remove
  split <;> rfl

/-- Removing a touch leaves the reference point alone. -/
lemma upRegistry_last (s : IMState) (ev : PointerEvent) :
    (upRegistry s ev).last = s.last := by
  unfold upRegistry remove
  split <;> rfl

/-- Characterization of InputManager.up when the viewport is not paused
and visible. -/
lemma up_eq (env : Env) (s : IMState) (ev : PointerEvent) (b : Bool)
    (hp : env.pause = false) (hv : env.worldVisible = true) :
    up env s ev b =
      (if (upRegistry s ev).clickedAvailable = true ∧ count (upRegistry s ev) = 0 then
        match (upRegistry s ev).last with
        | some lastPoint =>
          { state := { upRegistry s ev with clickedAvailable := false },
            emitted := some { event := ev, screen := lastPoint,
                              world := env.toWorld lastPoint },
            stopPropagationCalled := b && env.stopPropagation }
        | none =>
          { state := upRegistry s ev, emitted := none,
            stopPropagationCalled := b && env.stopPropagation }
       else
        { state := upRegistry s ev, emitted := none,
          stopPropagationCalled := b && env.stopPropagation }) := by
  unfold up upRegistry
  simp only [hp, hv, Bool.not_true, Bool.or_false, if_neg Bool.false_ne_true]
  by_cases hty : ev.pointerType = PointerType.mouse
  · simp only [if_pos hty, if_neg (not_not_intro hty)]
  · simp only [if_neg hty, if_pos hty]

/-- A move either keeps the state or merely clears clickedAvailable. -/
lemma move_state_cases (env : Env) (s : IMState) (ev : PointerEvent) (b : Bool) :
    (move env s ev b).state = s
      ∨ (move env s ev b).state = { s with clickedAvailable := false } := by
  unfold move
  split
  · exact Or.inl rfl
  · split
    · split
      · dsimp only
        split
        · exact Or.inr rfl
        · exact Or.inl rfl
      · exact Or.inl rfl
    · exact Or.inl rfl

/-- A touch down from the idle state (no touches, no mouse) with the
decelerate and bounce indicators inactive arms the click detector and
records the event position as the reference point. -/
lemma down_fresh (env : Env) (s : IMState) (ev : PointerEvent) (b : Bool)
    (hp : env.pause = false) (hv : env.worldVisible = true)
    (hty : ev.pointerType = PointerType.touch)
    (ht : s.touches = []) (hm : s.isMouseDown = false)
    (hdec : indicatorInactive env.decelerateActive = true)
    (hbn : indicatorInactive env.bounceActive = true) :
    (down env s ev b).state =
      { clickedAvailable := true, isMouseDown := false,
        last := some { x := ev.clientX, y := ev.clientY },
        touches := [{ id := ev.pointerId, last := none }] } := by
  have htym : ev.pointerType ≠ PointerType.mouse := by
    rw [hty]
    exact fun h => PointerType.noConfusion h
  have habs : InputManager.get s ev.pointerId = none := by
    unfold InputManager.get
    rw [ht]
    rfl
  rw [down_state_eq env s ev b hp hv, downRegistry_absent s ev htym habs]
  have hcount :
      count { s with touches := s.touches ++ [{ id := ev.pointerId, last := none }] } = 1 := by
    simp [count, hm, ht]
  rw [if_pos hcount]
  simp [hdec, hbn, ht, hm]

/-- A move within the threshold on both axes leaves the state unchanged. -/
lemma move_state_within (env : Env) (s : IMState) (ev : PointerEvent) (b : Bool) (p : Point)
    (hp : env.pause = false) (hv : env.worldVisible = true)
    (hca : s.clickedAvailable = true) (hl : s.last = some p)
    (hx : |ev.clientX - p.x| < env.threshold) (hy : |ev.clientY - p.y| < env.threshold) :
    (move env s ev b).state = s := by
  have h1 : checkThreshold env (ev.clientX - p.x) = false := by
    simp only [checkThreshold, decide_eq_false_iff_not]
    exact not_le.mpr hx
  have h2 : checkThreshold env (ev.clientY - p.y) = false := by
    simp only [checkThreshold, decide_eq_false_iff_not]
    exact not_le.mpr hy
  unfold move
  simp only [hp, hv, hca, hl, Bool.not_true, Bool.or_false,
    if_neg Bool.false_ne_true, if_true, h1, h2, Bool.or_self, Bool.false_or,
    if_neg Bool.false_ne_true]

/-- A run of moves all within the threshold of the recorded reference
point neither changes the state nor emits anything. -/
lemma run_moves_within (env : Env) (moves : List (PointerEvent × Bool))
    (s : IMState) (p : Point)
    (hp : env.pause = false) (hv : env.worldVisible = true)
    (hca : s.clickedAvailable = true) (hl : s.last = some p)
    (hmv : ∀ m ∈ moves, |m.1.clientX - p.x| < env.threshold
            ∧ |m.1.clientY - p.y| < env.threshold) :
    run s (moves.map fun m => (env, InputEvent.moveE m.1 m.2)) = (s, []) := by
  induction moves with
  | nil => rfl
  | cons m rest ih =>
    have hm := hmv m (List.mem_cons_self m rest)
    have hst : (move env s m.1 m.2).state = s :=
      move_state_within env s m.1 m.2 p hp hv hca hl hm.1 hm.2
    have hrest : ∀ x ∈ rest, |x.1.clientX - p.x| < env.threshold
        ∧ |x.1.clientY - p.y| < env.threshold :=
      fun x hx => hmv x (List.mem_cons_of_mem m hx)
    simp only [List.map_cons, run, step, hst, move_emitted_none, ih hrest,
      Option.toList_none, List.nil_append]

/-- A touch up that empties the registry while the click is armed emits
the clicked signal carrying the recorded reference point. -/
lemma up_resolve_emit (env : Env) (s : IMState) (ev : PointerEvent) (b : Bool) (p : Point)
    (hp : env.pause = false) (hv : env.worldVisible = true)
    (hty : ev.pointerType = PointerType.touch)
    (hca : s.clickedAvailable = true) (hl : s.last = some p)
    (hm : s.isMouseDown = false)
    (hrem : removeFirst s.touches ev.pointerId = []) :
    (up env s ev b).emitted
      = some { event := ev, screen := p, world := env.toWorld p } := by
  have htym : ev.pointerType ≠ PointerType.mouse := by
    rw [hty]
    exact fun h => PointerType.noConfusion h
  have hreg : upRegistry s ev = { s with touches := [] } := by
    unfold upRegistry remove
    rw [if_neg htym, hrem]
  rw [up_eq env s ev b hp hv, hreg]
  have hcond : ({ s with touches := ([] : List IViewportTouch) }).clickedAvailable = true
      ∧ count { s with touches := ([] : List IViewportTouch) } = 0 := by
    refine ⟨hca, ?_⟩
    simp [count, hm]
  rw [if_pos hcond]
  have hl2 : ({ s with touches := ([] : List IViewportTouch) }).last = some p := hl
  rw [hl2]

/-- A falsified pause/visibility gate means unpaused and visible. -/
lemma gate_false (env : Env) (hg : ¬ (env.pause || !env.worldVisible) = true) :
    env.pause = false ∧ env.worldVisible = true := by
  have hg2 : (env.pause || !env.worldVisible) = false := Bool.eq_false_iff.mpr hg
  rcases Bool.or_eq_false_iff.mp hg2 with ⟨h1, h2⟩
  exact ⟨h1, by simpa using h2⟩

/-- With the click disarmed, a move changes nothing. -/
lemma move_state_disarmed (env : Env) (s : IMState) (ev : PointerEvent) (b : Bool)
    (hca : s.clickedAvailable = false) :
    (move env s ev b).state = s := by
  unfold move
  split
  · rfl
  · simp [hca]

/-- With the click disarmed, an up emits nothing and leaves the click
disarmed. -/
lemma up_disarmed (env : Env) (s : IMState) (ev : PointerEvent) (b : Bool)
    (hca : s.clickedAvailable = false) :
    (up env s ev b).emitted = none
      ∧ (up env s ev b).state.clickedAvailable = false := by
  by_cases hg : (env.pause || !env.worldVisible) = true
  · unfold up
    rw [if_pos hg]
    exact ⟨rfl, hca⟩
  · obtain ⟨hp1, hv1⟩ := gate_false env hg
    rw [up_eq env s ev b hp1 hv1]
    rw [if_neg]
    · exact ⟨rfl, by rw [upRegistry_clickedAvailable]; exact hca⟩
    · intro hcond
      rw [upRegistry_clickedAvailable, hca] at hcond
      exact Bool.false_ne_true hcond.1

/-- If an up emitted the clicked signal, it also disarmed the click. -/
lemma up_emit_clears (env : Env) (s : IMState) (ev : PointerEvent) (b : Bool)
    (hem : ((up env s ev b).emitted).isSome = true) :
    (up env s ev b).state.clickedAvailable = false := by
  by_cases hg : (env.pause || !env.worldVisible) = true
  · exfalso
    unfold up at hem
    rw [if_pos hg] at hem
    simp at hem
  · obtain ⟨hp1, hv1⟩ := gate_false env hg
    rw [up_eq env s ev b hp1 hv1] at hem ⊢
    by_cases hcond : (upRegistry s ev).clickedAvailable = true
        ∧ count (upRegistry s ev) = 0
    · rw [if_pos hcond] at hem ⊢
      rcases hl : (upRegistry s ev).last with _ | p
      · rw [hl] at hem
        simp at hem
      · rfl
    · rw [if_neg hcond] at hem
      simp at hem

/-- A disarmed state stays disarmed and emits nothing over any run
containing no down event. -/
lemma run_no_down_disarmed (evs : List (Env × InputEvent)) (s : IMState)
    (h : ∀ e ∈ evs, isDownEvent e.2 = false)
    (hca : s.clickedAvailable = false) :
    (run s evs).2 = [] := by
  induction evs generalizing s with
  | nil => rfl
  | cons e rest ih =>
    have he := h e (List.mem_cons_self e rest)
    have hrest : ∀ x ∈ rest, isDownEvent x.2 = false :=
      fun x hx => h x (List.mem_cons_of_mem e hx)
    rcases hev : e.2 with ⟨ev, b⟩ | ⟨ev, b⟩ | ⟨ev, b⟩
    · rw [hev] at he
      exact absurd he (by simp [isDownEvent])
    · have hst := move_state_disarmed e.1 s ev b hca
      simp only [run, hev, step, move_emitted_none, Option.toList_none,
        List.nil_append, hst]
      exact ih s hrest hca
    · obtain ⟨hem, hca2⟩ := up_disarmed e.1 s ev b hca
      simp only [run, hev, step, hem, Option.toList_none, List.nil_append]
      exact ih _ hrest hca2

/-- A move never changes the recorded reference point. -/
lemma move_state_last (env : Env) (s : IMState) (ev : PointerEvent) (b : Bool) :
    (move env s ev b).state.last = s.last := by
  rcases move_state_cases env s ev b with h | h <;> rw [h]

/-- With no recorded reference point, an up emits nothing and still has
no reference point. -/
lemma up_no_last (env : Env) (s : IMState) (ev : PointerEvent) (b : Bool)
    (hl : s.last = none) :
    (up env s ev b).emitted = none ∧ (up env s ev b).state.last = none := by
  by_cases hg : (env.pause || !env.worldVisible) = true
  · unfold up
    rw [if_pos hg]
    exact ⟨rfl, hl⟩
  · obtain ⟨hp1, hv1⟩ := gate_false env hg
    rw [up_eq env s ev b hp1 hv1]
    have hl2 : (upRegistry s ev).last = none := by
      rw [upRegistry_last]
      exact hl
    split
    · rw [hl2]
      exact ⟨rfl, hl2⟩
    · exact ⟨rfl, hl2⟩

/-- With no recorded reference point, a run containing no down event
emits nothing. -/
lemma run_no_down_no_last (evs : List (Env × InputEvent)) (s : IMState)
    (h : ∀ e ∈ evs, isDownEvent e.2 = false)
    (hl : s.last = none) :
    (run s evs).2 = [] := by
  induction evs generalizing s with
  | nil => rfl
  | cons e rest ih =>
    have he := h e (List.mem_cons_self e rest)
    have hrest : ∀ x ∈ rest, isDownEvent x.2 = false :=
      fun x hx => h x (List.mem_cons_of_mem e hx)
    rcases hev : e.2 with ⟨ev, b⟩ | ⟨ev, b⟩ | ⟨ev, b⟩
    · rw [hev] at he
      exact absurd he (by simp [isDownEvent])
    · simp only [run, hev, step, move_emitted_none, Option.toList_none,
        List.nil_append]
      exact ih _ hrest (by rw [move_state_last]; exact hl)
    · obtain ⟨hem, hl2⟩ := up_no_last e.1 s ev b hl
      simp only [run, hev, step, hem, Option.toList_none, List.nil_append]
      exact ih _ hrest hl2

/-- A run whose every event arrives while the viewport reports paused
leaves the state unchanged and emits nothing. -/
lemma run_all_paused (evs : List (Env × InputEvent)) (s : IMState)
    (h : ∀ e ∈ evs, e.1.pause = true) :
    run s evs = (s, []) := by
  induction evs with
  | nil => rfl
  | cons e rest ih =>
    have he := h e (List.mem_cons_self e rest)
    have hrest : ∀ x ∈ rest, x.1.pause = true :=
      fun x hx => h x (List.mem_cons_of_mem e hx)
    simp only [run, step_paused e.1 s e.2 he, ih hrest, Option.toList_none,
      List.nil_append]


/-- When the pause/visibility gate fires, every handler is a no-op. -/
lemma step_gated (env : Env) (s : IMState) (e : InputEvent)
    (hg : (env.pause || !env.worldVisible) = true) :
    step env s e = { state := s, emitted := none, stopPropagationCalled := false } := by
  cases e <;> simp [step, down, move, up, hg]

/-- Splicing out a touch yields a sublist of the original list. -/
lemma removeFirst_sublist (ts : List IViewportTouch) (id : ℤ) :
    List.Sublist (removeFirst ts id) ts := by
  induction ts with
  | nil => exact List.Sublist.refl _
  | cons t rest ih =>
    unfold removeFirst
    split
    · exact List.sublist_cons_self t rest
    · exact List.Sublist.cons₂ t ih

/-- The touches after an un-gated up are those of the registry update. -/
lemma up_state_touches (env : Env) (s : IMState) (ev : PointerEvent) (b : Bool)
    (hp : env.pause = false) (hv : env.worldVisible = true) :
    (up env s ev b).state.touches = (upRegistry s ev).touches := by
  rw [up_eq env s ev b hp hv]
  split
  · rcases hl : (upRegistry s ev).last with _ | p
    · rfl
    · rfl
  · rfl

/-- Every handler preserves distinctness of the registered touch ids. -/
lemma step_touches_nodup (env : Env) (s : IMState) (e : InputEvent)
    (h : idsNodup s) : idsNodup (step env s e).state := by
  by_cases hg : (env.pause || !env.worldVisible) = true
  · rw [step_gated env s e hg]
    exact h
  · obtain ⟨hp1, hv1⟩ := gate_false env hg
    cases e with
    | downE ev b =>
      simp only [step]
      unfold idsNodup
      rw [down_state_touches env s ev b hp1 hv1]
      unfold downRegistry
      split
      · exact h
      · split
        · next habs =>
          simp only [List.map_append, List.map_cons, List.map_nil]
          rw [List.nodup_append]
          refine ⟨h, List.nodup_singleton _, ?_⟩
          intro a ha hb
          rw [List.mem_singleton] at hb
          obtain ⟨t, htmem, htid⟩ := List.mem_map.mp ha
          have hnone : InputManager.get s ev.pointerId = none :=
            Option.isNone_iff_eq_none.mp habs
          have := List.find?_eq_none.mp hnone t htmem
          apply this
          rw [beq_iff_eq, htid, hb]
        · exact h
    | moveE ev b =>
      simp only [step]
      unfold idsNodup
      rcases move_state_cases env s ev b with hc | hc <;> rw [hc] <;> exact h
    | upE ev b =>
      simp only [step]
      unfold idsNodup
      rw [up_state_touches env s ev b hp1 hv1]
      unfold upRegistry
      split
      · exact h
      · exact h.sublist (List.Sublist.map _ (removeFirst_sublist s.touches ev.pointerId))

/-- A whole run preserves distinctness of the registered touch ids. -/
lemma run_nodup (evs : List (Env × InputEvent)) (s : IMState)
    (h : idsNodup s) : idsNodup (run s evs).1 := by
  induction evs generalizing s with
  | nil => exact h
  | cons e rest ih =>
    simp only [run]
    exact ih _ (step_touches_nodup e.1 s e.2 h)

/-- Splitting a run at an append point. -/
lemma run_append (s : IMState) (evs1 evs2 : List (Env × InputEvent)) :
    run s (evs1 ++ evs2) =
      ((run (run s evs1).1 evs2).1, (run s evs1).2 ++ (run (run s evs1).1 evs2).2) := by
  induction evs1 generalizing s with
  | nil => simp [run]
  | cons e rest ih => simp [run, ih]

end Lemmas

/-- C6: the coordinate mapper returns
localX = (screenX - rect.left) * (backingWidth / rect.width), symmetrically
for y, where rect is the canvas's bounding rectangle when it has a layout
parent and the zero-offset backing-size rectangle when detached; for
backing size 800×600 and an on-screen rectangle 400×300 at offset (10,10),
screen (10,10) maps to local (0,0) and screen (410,310) to local (800,600). -/
theorem mapPositionToPoint_formula (c : CanvasElement) (x y : ℚ) :
    (InputManager.mapPositionToPoint c x y =
      (let rect := if c.hasParentElement then c.boundingClientRect else
        { left := 0, top := 0, width := c.width, height := c.height };
       { x := (x - rect.left) * (c.width / rect.width),
         y := (y - rect.top) * (c.height / rect.height) }))
    ∧ InputManager.mapPositionToPoint
        { width := 800, height := 600, hasParentElement := true,
          boundingClientRect := { left := 10, top := 10, width := 400, height := 300 } }
        10 10 = { x := 0, y := 0 }
    ∧ InputManager.mapPositionToPoint
        { width := 800, height := 600, hasParentElement := true,
          boundingClientRect := { left := 10, top := 10, width := 400, height := 300 } }
        410 310 = { x := 800, y := 600 } := by
  refine ⟨?_, ?_, ?_⟩
  · unfold InputManager.mapPositionToPoint
    cases h : c.hasParentElement <;> simp [h]
  · show Point.mk ((10 - 10) * (800 / 400)) ((10 - 10) * (600 / 300)) = Point.mk 0 0
    norm_num
  · show Point.mk ((410 - 10) * (800 / 400)) ((310 - 10) * (600 / 300)) = Point.mk 800 600
    norm_num

/-- C3: with the viewport not paused and visible, the plugin chain's wheel
handler is invoked iff the event's mapped local point satisfies
left ≤ x ≤ right and top ≤ y ≤ bottom (inclusive); preventDefault is
called iff the chain was invoked, its verdict is stop, and the wheel
listener is non-passive — in particular never when the point is outside
the rectangle. -/
theorem handleWheel_gate (env : Env) (ev : WheelEvent) (pluginStop : Bool)
    (hp : env.pause = false) (hv : env.worldVisible = true) :
    ((InputManager.handleWheel env ev pluginStop).pluginWheelCalled = true ↔
      (env.left ≤ (env.toLocal (InputManager.getPointerPosition env ev)).x
        ∧ (env.toLocal (InputManager.getPointerPosition env ev)).x ≤ env.right
        ∧ env.top ≤ (env.toLocal (InputManager.getPointerPosition env ev)).y
        ∧ (env.toLocal (InputManager.getPointerPosition env ev)).y ≤ env.bottom))
    ∧ (InputManager.handleWheel env ev pluginStop).preventDefaultCalled =
        ((InputManager.handleWheel env ev pluginStop).pluginWheelCalled
          && (pluginStop && !env.passiveWheel)) := by
  unfold InputManager.handleWheel
  simp only [hp, hv, Bool.not_true, Bool.or_false, Bool.false_or, if_neg Bool.false_ne_true]
  split
  · next h => simp [h]
  · next h => simp [h]

/-- C5: while a click is armed (clickedAvailable true with a recorded
reference point) and the viewport is not paused and visible, a move event
disarms the click iff the displacement from the reference point reaches
the threshold on either axis, each axis compared independently by
absolute value. -/
theorem move_disarm_iff (env : Env) (s : IMState) (ev : PointerEvent) (b : Bool) (p : Point)
    (hp : env.pause = false) (hv : env.worldVisible = true)
    (hca : s.clickedAvailable = true) (hl : s.last = some p) :
    ((InputManager.move env s ev b).state.clickedAvailable = false ↔
      (env.threshold ≤ |ev.clientX - p.x| ∨ env.threshold ≤ |ev.clientY - p.y|)) := by
  unfold InputManager.move
  simp only [hp, hv, hca, hl, Bool.not_true, Bool.or_false, Bool.false_or,
    if_neg Bool.false_ne_true, if_true]
  split
  · next h =>
    simp only [InputManager.checkThreshold, Bool.or_eq_true, decide_eq_true_iff] at h
    simpa using h
  · next h =>
    simp only [InputManager.checkThreshold, Bool.or_eq_true, decide_eq_true_iff] at h
    push_neg at h
    simp [hca, h]

/-- C4: with the viewport not paused and visible, a down event whose
resulting count is exactly 1 sets clickedAvailable to true iff neither the
decelerate nor the bounce indicator is present-and-active; a down event
whose resulting count exceeds 1 sets clickedAvailable to false. -/
theorem down_arms_click (env : Env) (s : IMState) (ev : PointerEvent) (b : Bool)
    (hp : env.pause = false) (hv : env.worldVisible = true) :
    (InputManager.count (InputManager.down env s ev b).state = 1 →
      ((InputManager.down env s ev b).state.clickedAvailable = true ↔
        (InputManager.indicatorInactive env.decelerateActive = true
          ∧ InputManager.indicatorInactive env.bounceActive = true)))
    ∧ (1 < InputManager.count (InputManager.down env s ev b).state →
        (InputManager.down env s ev b).state.clickedAvailable = false) := by
  rw [down_state_eq env s ev b hp hv]
  by_cases h : InputManager.count (downRegistry s ev) = 1
  · rw [if_pos h]
    constructor
    · intro _
      simp
    · intro hgt
      exfalso
      rw [count_update] at hgt
      omega
  · rw [if_neg h]
    constructor
    · intro hc
      rw [count_update_ca] at hc
      exact absurd hc h
    · intro _
      rfl

/-- C7: a duplicate down for a live touch id never creates a second
registry entry — after a first down registered the id, the registry holds
exactly one contact with that id, and a second down for the same id
leaves the touches list unchanged. -/
theorem register_idempotent (env : Env) (s : IMState) (ev : PointerEvent) (b1 b2 : Bool)
    (hp : env.pause = false) (hv : env.worldVisible = true)
    (hty : ev.pointerType ≠ PointerType.mouse)
    (habs : InputManager.get s ev.pointerId = none) :
    ((InputManager.down env (InputManager.down env s ev b1).state ev b2).state.touches
        = (InputManager.down env s ev b1).state.touches)
    ∧ ((InputManager.down env s ev b1).state.touches.filter
        (fun t => t.id == ev.pointerId)).length = 1 := by
  have h1 : (InputManager.down env s ev b1).state.touches
      = s.touches ++ [{ id := ev.pointerId, last := none }] := by
    rw [down_state_touches env s ev b1 hp hv, downRegistry_absent s ev hty habs]
  have hfilter : s.touches.filter (fun t => t.id == ev.pointerId) = [] := by
    rw [List.filter_eq_nil_iff]
    intro t ht
    have := List.find?_eq_none.mp habs t ht
    simpa using this
  constructor
  · rw [down_state_touches env _ ev b2 hp hv, downRegistry_present]
    · exact hty
    · unfold InputManager.get at habs ⊢
      rw [h1, List.find?_append, habs]
      simp
  · rw [h1, List.filter_append, hfilter]
    simp

/-- C9: a duplicate down for the sole live touch id (count stays 1, no
mouse) leaves the registry unchanged but overwrites the click reference
point with the new event's client coordinates and recomputes
clickedAvailable from the decelerate/bounce indicators. -/
theorem duplicate_down_rearms (env : Env) (s : IMState) (ev : PointerEvent) (b : Bool)
    (l : Option Point)
    (hp : env.pause = false) (hv : env.worldVisible = true)
    (hty : ev.pointerType = PointerType.touch)
    (ht : s.touches = [{ id := ev.pointerId, last := l }])
    (hm : s.isMouseDown = false) :
    ((InputManager.down env s ev b).state.touches = s.touches)
    ∧ ((InputManager.down env s ev b).state.last
        = some { x := ev.clientX, y := ev.clientY })
    ∧ ((InputManager.down env s ev b).state.clickedAvailable = true ↔
        (InputManager.indicatorInactive env.decelerateActive = true
          ∧ InputManager.indicatorInactive env.bounceActive = true)) := by
  have htymouse : ev.pointerType ≠ PointerType.mouse := by
    rw [hty]
    intro hcontra
    exact absurd hcontra (by decide)
  have hreg : downRegistry s ev = s := by
    apply downRegistry_present s ev htymouse
    unfold InputManager.get
    rw [ht]
    simp [List.find?]
  have hcount : InputManager.count (downRegistry s ev) = 1 := by
    rw [hreg]
    simp [InputManager.count, hm, ht]
  rw [down_state_eq env s ev b hp hv, if_pos hcount, hreg]
  refine ⟨rfl, rfl, ?_⟩
  simp

/-- C1: from the idle state, a single touch down followed by its matching
up, with the viewport not paused and visible, every intervening move
staying under the threshold on both axes, and the decelerate and bounce
indicators absent or inactive at down time, emits exactly one clicked
signal, at the up event, whose screen point equals the down event's
client coordinates. -/
theorem single_tap_emits_one_click (env : Env) (s : IMState)
    (dn upEv : PointerEvent) (moves : List (PointerEvent × Bool)) (b0 b1 : Bool)
    (hp : env.pause = false) (hv : env.worldVisible = true)
    (hdec : InputManager.indicatorInactive env.decelerateActive = true)
    (hbn : InputManager.indicatorInactive env.bounceActive = true)
    (ht : s.touches = []) (hm : s.isMouseDown = false)
    (hdn : dn.pointerType = PointerType.touch)
    (hup : upEv.pointerType = PointerType.touch)
    (hid : upEv.pointerId = dn.pointerId)
    (hmv : ∀ m ∈ moves, |m.1.clientX - dn.clientX| < env.threshold
            ∧ |m.1.clientY - dn.clientY| < env.threshold) :
    (run s ((env, InputEvent.downE dn b0)
        :: (moves.map (fun m => (env, InputEvent.moveE m.1 m.2))
            ++ [(env, InputEvent.upE upEv b1)]))).2
      = [{ event := upEv, screen := { x := dn.clientX, y := dn.clientY },
           world := env.toWorld { x := dn.clientX, y := dn.clientY } }] := by
  have hdownst : (InputManager.down env s dn b0).state =
      { clickedAvailable := true, isMouseDown := false,
        last := some { x := dn.clientX, y := dn.clientY },
        touches := [{ id := dn.pointerId, last := none }] } :=
    down_fresh env s dn b0 hp hv hdn ht hm hdec hbn
  have hmoves : run (InputManager.down env s dn b0).state
      (moves.map fun m => (env, InputEvent.moveE m.1 m.2))
      = ((InputManager.down env s dn b0).state, []) := by
    rw [hdownst]
    exact run_moves_within env moves _ { x := dn.clientX, y := dn.clientY }
      hp hv rfl rfl hmv
  have hupem : (InputManager.up env (InputManager.down env s dn b0).state upEv b1).emitted
      = some { event := upEv, screen := { x := dn.clientX, y := dn.clientY },
               world := env.toWorld { x := dn.clientX, y := dn.clientY } } := by
    rw [hdownst]
    apply up_resolve_emit env _ upEv b1 { x := dn.clientX, y := dn.clientY }
      hp hv hup rfl rfl rfl
    simp [InputManager.removeFirst, hid]
  simp only [run, step, down_emitted_none, Option.toList_none,
    List.nil_append, run_append, hmoves, hupem, Option.toList_some,
    List.append_nil]


/-- C10: if an up event emits the clicked signal, the handler immediately
disarms the click, and no later event short of a new down can emit again:
any following run without a down event emits nothing. -/
theorem at_most_one_click (env : Env) (s : IMState) (ev : PointerEvent) (b : Bool)
    (evs : List (Env × InputEvent))
    (hnd : ∀ e ∈ evs, isDownEvent e.2 = false)
    (hem : ((InputManager.up env s ev b).emitted).isSome = true) :
    (InputManager.up env s ev b).state.clickedAvailable = false
    ∧ (run (InputManager.up env s ev b).state evs).2 = [] := by
  have hfalse := up_emit_clears env s ev b hem
  exact ⟨hfalse, run_no_down_disarmed evs _ hnd hfalse⟩

/-- C2 as stated is false: pause() only empties the registry and clears
the mouse flag; it leaves clickedAvailable true and the reference point
recorded, and the interrupted sequence's up event (processed while the
viewport no longer reports paused) still emits a clicked signal. -/
theorem pause_leaves_click_armed :
    (InputManager.pause armedState).clickedAvailable = true
    ∧ (InputManager.pause armedState).last = some { x := 1, y := 2 }
    ∧ ((InputManager.up envSample (InputManager.pause armedState) touchUp5
        false).emitted).isSome = true := by
  refine ⟨rfl, rfl, ?_⟩
  rfl

/-- C2 amended: after pause() or clear() the registry is empty and the
mouse flag cleared (count() = 0), and neither call emits anything;
clear() clears the reference point, so the remainder of the interrupted
sequence (no new down) emits no clicked signal; pause() leaves
clickedAvailable and the reference point unchanged, and the remainder
emits no signal provided the viewport reports paused while those events
arrive. -/
theorem pause_clear_amended (s : IMState) (evs1 evs2 : List (Env × InputEvent))
    (h1 : ∀ e ∈ evs1, isDownEvent e.2 = false)
    (h2 : ∀ e ∈ evs2, e.1.pause = true) :
    InputManager.count (InputManager.pause s) = 0
    ∧ InputManager.count (InputManager.clear s) = 0
    ∧ (InputManager.pause s).clickedAvailable = s.clickedAvailable
    ∧ (InputManager.pause s).last = s.last
    ∧ (InputManager.clear s).clickedAvailable = s.clickedAvailable
    ∧ (InputManager.clear s).last = none
    ∧ (run (InputManager.clear s) evs1).2 = []
    ∧ (run (InputManager.pause s) evs2).2 = [] := by
  refine ⟨?_, ?_, rfl, rfl, rfl, rfl, ?_, ?_⟩
  · simp [InputManager.count, InputManager.pause]
  · simp [InputManager.count, InputManager.clear]
  · exact run_no_down_no_last evs1 _ h1 rfl
  · rw [run_all_paused evs2 _ h2]

/-- Concrete instance of the amended C2. -/
theorem pause_clear_amended_witness :
    InputManager.count (InputManager.pause armedState) = 0
    ∧ InputManager.count (InputManager.clear armedState) = 0
    ∧ (InputManager.pause armedState).clickedAvailable = armedState.clickedAvailable
    ∧ (InputManager.pause armedState).last = armedState.last
    ∧ (InputManager.clear armedState).clickedAvailable = armedState.clickedAvailable
    ∧ (InputManager.clear armedState).last = none
    ∧ (run (InputManager.clear armedState)
        [(envSample, InputEvent.upE touchUp5 false)]).2 = []
    ∧ (run (InputManager.pause armedState)
        [(envPaused, InputEvent.upE touchUp5 false)]).2 = [] :=
  pause_clear_amended armedState
    [(envSample, InputEvent.upE touchUp5 false)]
    [(envPaused, InputEvent.upE touchUp5 false)]
    (fun e he => by rw [List.mem_singleton.mp he]; rfl)
    (fun e he => by rw [List.mem_singleton.mp he]; rfl)

/-- C8: over every sequence of pointer events from the initial state —
including ups for ids never registered — count() never goes negative and
always equals the number of distinct currently-registered touch ids plus
1 when the mouse flag is set. -/
theorem count_registry_invariant (evs : List (Env × InputEvent)) :
    0 ≤ InputManager.count (run initialState evs).1
    ∧ InputManager.count (run initialState evs).1 =
        (((run initialState evs).1.touches.map IViewportTouch.id).dedup.length : ℤ)
          + (if (run initialState evs).1.isMouseDown then 1 else 0) := by
  have hnd : idsNodup (run initialState evs).1 :=
    run_nodup evs initialState (by simp [idsNodup, initialState])
  constructor
  · unfold InputManager.count
    split <;> omega
  · unfold InputManager.count
    unfold idsNodup at hnd
    rw [List.dedup_eq_self.mpr hnd, List.length_map]
    split <;> omega

/-- Concrete instance of C1: a tap with a small intervening move emits
exactly one clicked signal at the down position. -/
theorem single_tap_emits_one_click_witness :
    (run initialState ((envSample, InputEvent.downE tapDown false)
        :: ([(tapMove, true)].map (fun m => (envSample, InputEvent.moveE m.1 m.2))
            ++ [(envSample, InputEvent.upE tapUp true)]))).2
      = [{ event := tapUp, screen := { x := 3, y := 4 },
           world := { x := 3, y := 4 } }] :=
  single_tap_emits_one_click envSample initialState tapDown tapUp
    [(tapMove, true)] false true rfl rfl rfl rfl rfl rfl rfl rfl rfl
    (fun m hm => by
      rw [List.mem_singleton.mp hm]
      constructor <;> norm_num [envSample, tapMove, tapDown])

/-- Concrete instance of C3 at a wheel event inside the bounds. -/
theorem handleWheel_gate_witness :
    ((InputManager.handleWheel envSample wheelSample true).pluginWheelCalled = true ↔
      (envSample.left ≤ (envSample.toLocal (InputManager.getPointerPosition envSample wheelSample)).x
        ∧ (envSample.toLocal (InputManager.getPointerPosition envSample wheelSample)).x ≤ envSample.right
        ∧ envSample.top ≤ (envSample.toLocal (InputManager.getPointerPosition envSample wheelSample)).y
        ∧ (envSample.toLocal (InputManager.getPointerPosition envSample wheelSample)).y ≤ envSample.bottom))
    ∧ (InputManager.handleWheel envSample wheelSample true).preventDefaultCalled =
        ((InputManager.handleWheel envSample wheelSample true).pluginWheelCalled
          && (true && !envSample.passiveWheel)) :=
  handleWheel_gate envSample wheelSample true rfl rfl

/-- Concrete instance of C4 at a fresh touch down. -/
theorem down_arms_click_witness :
    (InputManager.count (InputManager.down envSample initialState tapDown false).state = 1 →
      ((InputManager.down envSample initialState tapDown false).state.clickedAvailable = true ↔
        (InputManager.indicatorInactive envSample.decelerateActive = true
          ∧ InputManager.indicatorInactive envSample.bounceActive = true)))
    ∧ (1 < InputManager.count (InputManager.down envSample initialState tapDown false).state →
        (InputManager.down envSample initialState tapDown false).state.clickedAvailable = false) :=
  down_arms_click envSample initialState tapDown false rfl rfl

/-- Concrete instance of C5 at a move far beyond the threshold. -/
theorem move_disarm_iff_witness :
    ((InputManager.move envSample armedState farMove false).state.clickedAvailable = false ↔
      (envSample.threshold ≤ |farMove.clientX - (1 : ℚ)|
        ∨ envSample.threshold ≤ |farMove.clientY - (2 : ℚ)|)) :=
  move_disarm_iff envSample armedState farMove false { x := 1, y := 2 } rfl rfl rfl rfl

/-- Concrete instance of C7: registering touch id 1 twice yields one entry. -/
theorem register_idempotent_witness :
    ((InputManager.down envSample
        (InputManager.down envSample initialState tapDown false).state tapDown true).state.touches
      = (InputManager.down envSample initialState tapDown false).state.touches)
    ∧ ((InputManager.down envSample initialState tapDown false).state.touches.filter
        (fun t => t.id == tapDown.pointerId)).length = 1 :=
  register_idempotent envSample initialState tapDown false true rfl rfl
    (by decide) rfl

/-- Concrete instance of C9: a duplicate down for the sole touch id 5. -/
theorem duplicate_down_rearms_witness :
    ((InputManager.down envSample armedState touchDown5 false).state.touches
      = armedState.touches)
    ∧ ((InputManager.down envSample armedState touchDown5 false).state.last
      = some { x := touchDown5.clientX, y := touchDown5.clientY })
    ∧ (((InputManager.down envSample armedState touchDown5 false).state.clickedAvailable = true) ↔
        (InputManager.indicatorInactive envSample.decelerateActive = true
          ∧ InputManager.indicatorInactive envSample.bounceActive = true)) :=
  duplicate_down_rearms envSample armedState touchDown5 false none rfl rfl rfl rfl rfl

/-- Concrete instance of C10: after the emitting up, a further move emits
nothing. -/
theorem at_most_one_click_witness :
    (InputManager.up envSample armedState touchUp5 false).state.clickedAvailable = false
    ∧ (run (InputManager.up envSample armedState touchUp5 false).state
        [(envSample, InputEvent.moveE tapMove false)]).2 = [] :=
  at_most_one_click envSample armedState touchUp5 false
    [(envSample, InputEvent.moveE tapMove false)]
    (fun e he => by rw [List.mem_singleton.mp he]; rfl)
    rfl

end PixiViewport
